import Mathlib

/-!
The request submission of MTP::Instance (mtproto/mtp_instance.h).

A shallow embedding of the inline entry points of `MTP::Instance`
(`send`, its `onDone`/`onFail` overload, `sendProtocolMessage`,
`sendSerialized`).  The header only declares `internal::GetNextRequestId`,
`SecureRequest::Serialize` and the private `Instance::sendRequest`; they are
the fields of `Externals`, so every statement about the entry points holds
for all implementations of them.  The world `W` is everything these calls
may read or write (the global request counter, the private instance data).
-/

namespace MTP

/-- The C++ `mtpRequestId` (an `int32`); `GetNextRequestId` returns `int`. -/
abbrev mtpRequestId := Int

/-- The C++ `ShiftedDcId`. -/
abbrev ShiftedDcId := Int

/-- The C++ `crl::time`, in milliseconds. -/
abbrev Time := Int

/-- Modelled from the spec: `RPCResponseHandler` is declared in
`mtproto/mtproto_rpc_sender.h`, which is not part of the sources.  The spec
calls it "a done-callback and a fail-callback pair, supplied per request by
the caller"; the header builds it as `RPCResponseHandler(onDone, onFail)` from
two handler pointers, lets `onFail` be `nullptr` and default-constructs it as
`{}`.  A handler pointer is `Option`, `none` being the null pointer. -/
structure RPCResponseHandler (D F : Type) where
  onDone : Option D := none
  onFail : Option F := none
  deriving DecidableEq

/-- What `mtp_instance.h` calls but does not define. -/
structure Externals (W Q S D F : Type) where
  /-- The call `internal::GetNextRequestId()`: its result and the world it leaves. -/
  GetNextRequestId : W → mtpRequestId × W
  /-- The call `SecureRequest::Serialize(request)`. -/
  Serialize : Q → S
  /-- The private `Instance::sendRequest(requestId, request, callbacks,
  shiftedDcId, msCanWait, needsLayer, afterRequestId)`. -/
  sendRequest : mtpRequestId → S → RPCResponseHandler D F → ShiftedDcId → Time →
    Bool → mtpRequestId → W → W

section EntryPoints

variable {W Q S D F : Type}

/-- The C++ `Instance::sendSerialized` (lines 178-194). -/
def Instance.sendSerialized (x : Externals W Q S D F)
    (requestId : mtpRequestId) (request : S)
    (callbacks : RPCResponseHandler D F) (shiftedDcId : ShiftedDcId)
    (msCanWait : Time) (afterRequestId : mtpRequestId) : W → W :=
  fun w =>
    let needsLayer := true
    x.sendRequest requestId request callbacks shiftedDcId msCanWait needsLayer
      afterRequestId w

/-- The C++ `Instance::send`, the `RPCResponseHandler` overload (lines 128-144), with
the default arguments of the C++ declaration. -/
def Instance.send (x : Externals W Q S D F) (request : Q)
    (callbacks : RPCResponseHandler D F := {}) (shiftedDcId : ShiftedDcId := 0)
    (msCanWait : Time := 0) (afterRequestId : mtpRequestId := 0) :
    W → mtpRequestId × W :=
  fun w =>
    let (requestId, w1) := x.GetNextRequestId w
    let w2 := Instance.sendSerialized x requestId (x.Serialize request) callbacks
      shiftedDcId msCanWait afterRequestId w1
    (requestId, w2)

/-- The C++ `Instance::send`, the `onDone`/`onFail` overload (lines 146-160); `onDone`
is a handler pointer, so it may be null as well. -/
def Instance.sendHandlers (x : Externals W Q S D F) (request : Q)
    (onDone : Option D) (onFail : Option F := none)
    (shiftedDcId : ShiftedDcId := 0) (msCanWait : Time := 0)
    (afterRequestId : mtpRequestId := 0) : W → mtpRequestId × W :=
  Instance.send x request (RPCResponseHandler.mk onDone onFail) shiftedDcId
    msCanWait afterRequestId

/-- The C++ `Instance::sendProtocolMessage` (lines 162-176). -/
def Instance.sendProtocolMessage (x : Externals W Q S D F)
    (shiftedDcId : ShiftedDcId) (request : Q) : W → mtpRequestId × W :=
  fun w =>
    let (requestId, w1) := x.GetNextRequestId w
    let w2 := x.sendRequest requestId (x.Serialize request) {} shiftedDcId 0 false 0 w1
    (requestId, w2)

end EntryPoints

/-! ## Observing the calls

To count calls, the externals are instantiated so that each call is written
to a log: the id generator is an arbitrary step function `next` on an
arbitrary generator state, `sendRequest` only records its arguments. -/

/-- One call of an external function, with the values that crossed it. -/
inductive Call (S D F : Type) where
  | getNextRequestId (result : mtpRequestId)
  | sendRequest (requestId : mtpRequestId) (request : S)
      (callbacks : RPCResponseHandler D F) (shiftedDcId : ShiftedDcId)
      (msCanWait : Time) (needsLayer : Bool) (afterRequestId : mtpRequestId)
  deriving DecidableEq

/-- The world of the logging externals: generator state and call log. -/
structure Recorded (G S D F : Type) where
  generator : G
  calls : List (Call S D F)
  deriving DecidableEq

section Recording

variable {G Q S D F : Type}

/-- The logging externals. -/
def recording (next : G → mtpRequestId × G) (serialize : Q → S) :
    Externals (Recorded G S D F) Q S D F where
  GetNextRequestId := fun w =>
    ((next w.generator).1,
      ⟨(next w.generator).2, w.calls ++ [Call.getNextRequestId (next w.generator).1]⟩)
  Serialize := serialize
  sendRequest := fun requestId request callbacks shiftedDcId msCanWait needsLayer
      afterRequestId w =>
    ⟨w.generator, w.calls ++ [Call.sendRequest requestId request callbacks shiftedDcId
      msCanWait needsLayer afterRequestId]⟩

end Recording

/-! ## The request registry behind `sendRequest`

`mtp_instance.h` declares `internal::GetNextRequestId`, `Instance::cancel`,
`execCallback`, `hasCallbacks`, `rpcErrorOccured` and the private
`sendRequest` without bodies.  What follows models them from the specification
of the request registry (spec §3, §4.1, §4.6, §7). -/

/-- The largest value of the C++ `int` (32 bits). -/
def intMax : Int := 2147483647

/-- The smallest value of the C++ `int` (32 bits). -/
def intMin : Int := -2147483648

/-- The value as a 32-bit `int`: the two's complement value, so that
`intMax + 1` is `intMin`. -/
def wrapInt (v : Int) : Int :=
  (v + 2147483648) % 4294967296 - 2147483648

/-- Modelled from the spec: `internal::GetNextRequestId` has no body in the
sources, only the declaration `int GetNextRequestId()` (line 19).  The spec's
RequestId is "a process-wide monotonically increasing integer", "generated
once per submitted request": the process-wide state is the last id handed
out, an `int`, and every call hands out the next integer.  The result is an
`int` as declared: above `intMax` there is no next `int`, and the increment is
taken in 32 bits, as the increment of an `int` counter is. -/
def internal.GetNextRequestId (lastRequestId : Int) : mtpRequestId × Int :=
  (wrapInt (lastRequestId + 1), wrapInt (lastRequestId + 1))

/-- Modelled from the spec: the PendingRequest record of §3, "requestId,
targetShiftedDcId, serializedPayload, doneCallback, failCallback, maxWaitTime,
afterRequestId (0 = none)", together with the layer flag `sendRequest` is
given.  The creation time is left out: the model has no clock. -/
structure PendingRequest (S D F : Type) where
  requestId : mtpRequestId
  targetShiftedDcId : ShiftedDcId
  serializedPayload : S
  callbacks : RPCResponseHandler D F
  maxWaitTime : Time
  afterRequestId : mtpRequestId
  needsLayer : Bool
  deriving DecidableEq

/-- Modelled from the spec: an entry of the registry's table, a PendingRequest
and whether its payload has been handed to the SessionRouter yet (a request
with an unfinished `afterRequestId` is stored but held back, §4.1). -/
structure Entry (S D F : Type) where
  request : PendingRequest S D F
  handedOver : Bool
  deriving DecidableEq

/-- Modelled from the spec: what the registry does that the rest of the
system can observe, in the order it happens. -/
inductive Event (S D F E : Type) where
  /-- The payload is handed to the SessionRouter for transmission. -/
  | handedToSession (request : PendingRequest S D F)
  /-- The done callback of a request is invoked with the response. -/
  | doneInvoked (requestId : mtpRequestId) (onDone : D) (response : List Int)
  /-- The fail callback of a request is invoked with the error. -/
  | failInvoked (requestId : mtpRequestId) (onFail : F) (error : E)
  /-- The error goes to the global failure hook (§7: no fail callback). -/
  | globalFail (requestId : mtpRequestId) (error : E)
  /-- The request has reached a terminal (done or failed) state. -/
  | terminal (requestId : mtpRequestId)
  deriving DecidableEq

/-- Modelled from the spec: the RequestRegistry of §4.1, the table of pending
requests ("at most one PendingRequest entry exists per requestId") and the
events so far. -/
structure Registry (S D F E : Type) where
  pending : List (Entry S D F)
  trace : List (Event S D F E)
  deriving DecidableEq

/-- Modelled from the spec: the collaborators the registry consults: the
datacenter directory (§6) tells whether a target is reachable, with the error
reported when it is not; the error taxonomy (§7) tells which errors are
recovered locally (migration, retried errors) and never surfaced. -/
structure Collaborators (E : Type) where
  reachable : ShiftedDcId → Bool
  unreachableError : E
  recoveredLocally : E → Bool

section RegistryModel

variable {S D F E : Type}

/-- The event says that request `a` reached a terminal state. -/
def Event.isTerminalOf (a : mtpRequestId) : Event S D F E → Bool
  | Event.terminal b => b == a
  | _ => false

/-- The registry of a freshly constructed instance. -/
def Registry.empty : Registry S D F E := ⟨[], []⟩

/-- Request `a` has reached a terminal (done or failed) state. -/
def Registry.reachedTerminal (r : Registry S D F E) (a : mtpRequestId) : Bool :=
  r.trace.any (Event.isTerminalOf a)

/-- The ids of the pending requests, in table order. -/
def Registry.ids (r : Registry S D F E) : List mtpRequestId :=
  r.pending.map (fun e => e.request.requestId)

/-- The entry is stored but held back until request `a` is terminal. -/
def Entry.waitsFor (a : mtpRequestId) (e : Entry S D F) : Bool :=
  !e.handedOver && e.request.afterRequestId == a

/-- The entry belongs to another request than `a`. -/
def Entry.isNot (a : mtpRequestId) (e : Entry S D F) : Bool :=
  e.request.requestId != a

/-- Modelled from the spec: `hasPending(requestId)` of §4.1, declared as
`Instance::hasCallbacks`. -/
def Instance.hasCallbacks (requestId : mtpRequestId) (r : Registry S D F E) : Bool :=
  r.pending.any (fun e => e.request.requestId == requestId)

/-- Modelled from the spec: the ordering rule of §4.1.  Request `a` becomes
terminal; the payloads held back for it are handed to the SessionRouter. -/
def Registry.finish (a : mtpRequestId) (r : Registry S D F E) : Registry S D F E :=
  ⟨r.pending.map (fun e => if e.waitsFor a then ⟨e.request, true⟩ else e),
    r.trace ++ [Event.terminal a]
      ++ (r.pending.filter (Entry.waitsFor a)).map (fun e => Event.handedToSession e.request)⟩

/-- Modelled from the spec: a failure is delivered to the fail callback, and
"if none was registered, routed to the global failure hook" (§7). -/
def Registry.deliverFailure (requestId : mtpRequestId) (onFail : Option F) (error : E)
    (r : Registry S D F E) : Registry S D F E :=
  match onFail with
  | some f => ⟨r.pending, r.trace ++ [Event.failInvoked requestId f error]⟩
  | none => ⟨r.pending, r.trace ++ [Event.globalFail requestId error]⟩

/-- Modelled from the spec: `submit` of §4.1, which is what the private
`Instance::sendRequest` has to do: it "stores a PendingRequest, and hands it to
SessionRouter for transmission", "fails silently into the fail callback if the
target datacenter is unreachable at submission time", and with a non-zero
`afterRequestId` "must not hand the payload to SessionRouter for transmission
until the named request has reached a terminal (done or failed) state".
Storing replaces an entry of the same id, which keeps one entry per id. -/
def Registry.submit (c : Collaborators E) (requestId : mtpRequestId) (request : S)
    (callbacks : RPCResponseHandler D F) (shiftedDcId : ShiftedDcId) (msCanWait : Time)
    (needsLayer : Bool) (afterRequestId : mtpRequestId) (r : Registry S D F E) :
    Registry S D F E :=
  let p : PendingRequest S D F :=
    ⟨requestId, shiftedDcId, request, callbacks, msCanWait, afterRequestId, needsLayer⟩
  if c.reachable shiftedDcId then
    if afterRequestId != 0 && !r.reachedTerminal afterRequestId then
      ⟨r.pending.filter (Entry.isNot requestId) ++ [⟨p, false⟩], r.trace⟩
    else
      ⟨r.pending.filter (Entry.isNot requestId) ++ [⟨p, true⟩],
        r.trace ++ [Event.handedToSession p]⟩
  else
    Registry.finish requestId
      (Registry.deliverFailure requestId callbacks.onFail c.unreachableError r)

/-- Modelled from the spec: `cancel(requestId)` of §4.1: "if found, removes
the entry and suppresses any future callback invocation"; "calling it twice,
or for an unknown id, is a safe no-op". -/
def Instance.cancel (requestId : mtpRequestId) (r : Registry S D F E) : Registry S D F E :=
  ⟨r.pending.filter (Entry.isNot requestId), r.trace⟩

/-- Modelled from the spec: `resolveIncoming` of §4.1 for a response: it "looks
up the PendingRequest; if present, invokes the appropriate callback exactly
once and removes the entry"; the request is then done.  A request without a
done callback has nothing to invoke. -/
def Instance.execCallback (requestId : mtpRequestId) (response : List Int)
    (r : Registry S D F E) : Registry S D F E :=
  match r.pending.find? (fun e => e.request.requestId == requestId) with
  | none => r
  | some e =>
    Registry.finish requestId
      ⟨r.pending.filter (Entry.isNot requestId),
        r.trace ++ (match e.request.callbacks.onDone with
          | some d => [Event.doneInvoked requestId d response]
          | none => [])⟩

/-- Modelled from the spec: `rpcErrorOccured(requestId, failCallback, error)`
of §4.6: it "classifies the error (see §7), invokes the fail callback if still
pending, and returns whether the caller should purge any request-scoped state
it holds for that id".  An error recovered locally is not surfaced and leaves
the request pending; otherwise a pending request fails and leaves the table. -/
def Instance.rpcErrorOccured (c : Collaborators E) (requestId : mtpRequestId)
    (onFail : Option F) (error : E) (r : Registry S D F E) : Bool × Registry S D F E :=
  if c.recoveredLocally error then (false, r)
  else if Instance.hasCallbacks requestId r then
    (true, Registry.finish requestId
      (Registry.deliverFailure requestId onFail error
        ⟨r.pending.filter (Entry.isNot requestId), r.trace⟩))
  else (true, r)

end RegistryModel

/-! ## The instance with its registry

The process-wide request counter next to a state `V` that `sendRequest`
works on; with `V` the registry this is the instance the spec describes. -/

section Process

variable {V Q S D F E : Type}

/-- The externals when the id generator is the process-wide counter and
`sendRequest` is `sr`, which works on the rest of the state only. -/
def withCounter (serialize : Q → S)
    (sr : mtpRequestId → S → RPCResponseHandler D F → ShiftedDcId → Time → Bool →
      mtpRequestId → V → V) : Externals (Int × V) Q S D F where
  GetNextRequestId := fun w =>
    ((internal.GetNextRequestId w.1).1, ((internal.GetNextRequestId w.1).2, w.2))
  Serialize := serialize
  sendRequest := fun requestId request callbacks shiftedDcId msCanWait needsLayer
      afterRequestId w =>
    (w.1, sr requestId request callbacks shiftedDcId msCanWait needsLayer afterRequestId w.2)

/-- The externals of the instance the spec describes: the counter and the
registry's `submit`. -/
def registryExternals (c : Collaborators E) (serialize : Q → S) :
    Externals (Int × Registry S D F E) Q S D F :=
  withCounter serialize (Registry.submit c)

/-- A call of one of the two entry points that return a fresh id, or anything
else done to the rest of the state in between. -/
inductive IdCall (V Q D F : Type) where
  | send (request : Q) (callbacks : RPCResponseHandler D F) (shiftedDcId : ShiftedDcId)
      (msCanWait : Time) (afterRequestId : mtpRequestId)
  | sendProtocolMessage (shiftedDcId : ShiftedDcId) (request : Q)
  | other (change : V → V)

/-- Runs the calls in order; the ids returned, in call order, and the final
state. -/
def idsReturned (x : Externals (Int × V) Q S D F) :
    List (IdCall V Q D F) → Int × V → List mtpRequestId × (Int × V)
  | [], w => ([], w)
  | IdCall.send request callbacks shiftedDcId msCanWait afterRequestId :: rest, w =>
    let r := Instance.send x request callbacks shiftedDcId msCanWait afterRequestId w
    let t := idsReturned x rest r.2
    (r.1 :: t.1, t.2)
  | IdCall.sendProtocolMessage shiftedDcId request :: rest, w =>
    let r := Instance.sendProtocolMessage x shiftedDcId request w
    let t := idsReturned x rest r.2
    (r.1 :: t.1, t.2)
  | IdCall.other change :: rest, w => idsReturned x rest (w.1, change w.2)

/-- The number of calls in the list that return a fresh id. -/
def idCallCount : List (IdCall V Q D F) → Nat
  | [] => 0
  | IdCall.send _ _ _ _ _ :: rest => idCallCount rest + 1
  | IdCall.sendProtocolMessage _ _ :: rest => idCallCount rest + 1
  | IdCall.other _ :: rest => idCallCount rest

/-- What happens to an instance: a call of one of its entry points, or a
response or error coming in from a session. -/
inductive Action (Q S D F E : Type) where
  | send (request : Q) (callbacks : RPCResponseHandler D F) (shiftedDcId : ShiftedDcId)
      (msCanWait : Time) (afterRequestId : mtpRequestId)
  | sendProtocolMessage (shiftedDcId : ShiftedDcId) (request : Q)
  | sendSerialized (requestId : mtpRequestId) (request : S)
      (callbacks : RPCResponseHandler D F) (shiftedDcId : ShiftedDcId) (msCanWait : Time)
      (afterRequestId : mtpRequestId)
  | cancel (requestId : mtpRequestId)
  | execCallback (requestId : mtpRequestId) (response : List Int)
  | rpcErrorOccured (requestId : mtpRequestId) (onFail : Option F) (error : E)

/-- One action on the instance. -/
def perform (c : Collaborators E) (serialize : Q → S) :
    Action Q S D F E → Int × Registry S D F E → Int × Registry S D F E
  | Action.send request callbacks shiftedDcId msCanWait afterRequestId, w =>
    (Instance.send (registryExternals c serialize) request callbacks shiftedDcId msCanWait
      afterRequestId w).2
  | Action.sendProtocolMessage shiftedDcId request, w =>
    (Instance.sendProtocolMessage (registryExternals c serialize) shiftedDcId request w).2
  | Action.sendSerialized requestId request callbacks shiftedDcId msCanWait afterRequestId,
      w =>
    Instance.sendSerialized (registryExternals c serialize) requestId request callbacks
      shiftedDcId msCanWait afterRequestId w
  | Action.cancel requestId, w => (w.1, Instance.cancel requestId w.2)
  | Action.execCallback requestId response, w =>
    (w.1, Instance.execCallback requestId response w.2)
  | Action.rpcErrorOccured requestId onFail error, w =>
    (w.1, (Instance.rpcErrorOccured c requestId onFail error w.2).2)

/-- The actions in order. -/
def performAll (c : Collaborators E) (serialize : Q → S)
    (actions : List (Action Q S D F E)) (w : Int × Registry S D F E) :
    Int × Registry S D F E :=
  actions.foldl (fun v a => perform c serialize a v) w

/-- The number of actions in the list that take an id from the generator. -/
def idsTaken : List (Action Q S D F E) → Nat
  | [] => 0
  | Action.send _ _ _ _ _ :: rest => idsTaken rest + 1
  | Action.sendProtocolMessage _ _ :: rest => idsTaken rest + 1
  | _ :: rest => idsTaken rest

/-- The action is a `sendSerialized`, where the caller chooses the id. -/
def Action.choosesId : Action Q S D F E → Bool
  | Action.sendSerialized _ _ _ _ _ _ => true
  | _ => false

/-- Every hand-over of a request with a non-zero `afterRequestId` comes after
the event that made the named request terminal. -/
def Ordered (trace : List (Event S D F E)) : Prop :=
  ∀ (before after : List (Event S D F E)) (p : PendingRequest S D F),
    trace = before ++ Event.handedToSession p :: after →
    p.afterRequestId ≠ 0 → before.any (Event.isTerminalOf p.afterRequestId) = true

/-- The event may follow the events `seen`: a hand-over of a request with a
non-zero `afterRequestId` needs the terminal event of that request in `seen`. -/
def Event.allowedAfter (seen : List (Event S D F E)) : Event S D F E → Bool
  | Event.handedToSession p =>
    p.afterRequestId == 0 || seen.any (Event.isTerminalOf p.afterRequestId)
  | _ => true

/-- The executable form of `Ordered` for a trace that continues `seen`. -/
def orderedFrom (seen : List (Event S D F E)) : List (Event S D F E) → Bool
  | [] => true
  | e :: rest => e.allowedAfter seen && orderedFrom (seen ++ [e]) rest

end Process

/-! ## Entry points whose callees may throw

The body of `Instance::send` has no `try`: an exception thrown by a function
it calls reaches its caller.  Here the three functions the header only
declares may throw; a call gives its outcome and the world it leaves. -/

/-- How a call ends: it returns a value or it throws an exception. -/
inductive Outcome (X A : Type) where
  | returned (value : A)
  | thrown (exception : X)
  deriving DecidableEq

namespace Throwing

/-- What `mtp_instance.h` calls but does not define, when a call may throw. -/
structure Externals (W Q S D F X : Type) where
  /-- The call `internal::GetNextRequestId()`. -/
  GetNextRequestId : W → Outcome X mtpRequestId × W
  /-- The call `SecureRequest::Serialize(request)`. -/
  Serialize : Q → Outcome X S
  /-- The private `Instance::sendRequest`. -/
  sendRequest : mtpRequestId → S → RPCResponseHandler D F → ShiftedDcId → Time →
    Bool → mtpRequestId → W → Outcome X Unit × W

section EntryPoints

variable {W Q S D F X : Type}

/-- The C++ `Instance::sendSerialized` (lines 178-194): what `sendRequest`
throws, it throws. -/
def Instance.sendSerialized (x : Externals W Q S D F X)
    (requestId : mtpRequestId) (request : S)
    (callbacks : RPCResponseHandler D F) (shiftedDcId : ShiftedDcId)
    (msCanWait : Time) (afterRequestId : mtpRequestId) : W → Outcome X Unit × W :=
  fun w =>
    let needsLayer := true
    x.sendRequest requestId request callbacks shiftedDcId msCanWait needsLayer
      afterRequestId w

/-- The C++ `Instance::send`, the `RPCResponseHandler` overload (lines
128-144): the id is taken first, then the request is serialized, then
`sendSerialized` is called; the first exception ends the call, and `return
requestId` is reached when there was none. -/
def Instance.send (x : Externals W Q S D F X) (request : Q)
    (callbacks : RPCResponseHandler D F := {}) (shiftedDcId : ShiftedDcId := 0)
    (msCanWait : Time := 0) (afterRequestId : mtpRequestId := 0) :
    W → Outcome X mtpRequestId × W :=
  fun w =>
    match x.GetNextRequestId w with
    | (Outcome.thrown e, w1) => (Outcome.thrown e, w1)
    | (Outcome.returned requestId, w1) =>
      match x.Serialize request with
      | Outcome.thrown e => (Outcome.thrown e, w1)
      | Outcome.returned payload =>
        match Instance.sendSerialized x requestId payload callbacks shiftedDcId
            msCanWait afterRequestId w1 with
        | (Outcome.thrown e, w2) => (Outcome.thrown e, w2)
        | (Outcome.returned _, w2) => (Outcome.returned requestId, w2)

end EntryPoints

end Throwing

/-! ## A small instance

Requests, payloads, handlers and errors are numbers; datacenter 9 is
unreachable; error 303 is recovered locally. -/

/-- The collaborators of the small instance. -/
def exampleCollaborators : Collaborators Nat :=
  ⟨fun shiftedDcId => shiftedDcId != 9, 404, fun error => error == 303⟩

/-- The externals of the small instance; serialization is the identity. -/
def exampleExternals : Externals (Int × Registry Nat Nat Nat Nat) Nat Nat Nat Nat :=
  registryExternals exampleCollaborators id

/-- The small instance before any request: last id 0, empty registry. -/
def exampleStart : Int × Registry Nat Nat Nat Nat :=
  (0, Registry.empty)

section EntryPointTheorems

variable {W G Q S D F : Type}

/-- C1: `Instance::send` asks `internal::GetNextRequestId` for one id, passes
that id through `sendSerialized` to one `sendRequest` call and returns it.
For arbitrary externals the result is the generator's id paired with the world
left by that single `sendRequest` call; in the logged run the calls added are
exactly one `getNextRequestId` and one `sendRequest`, both carrying the id
that is returned. -/
theorem send_returns_the_id_it_registers (request : Q)
    (callbacks : RPCResponseHandler D F) (shiftedDcId : ShiftedDcId)
    (msCanWait : Time) (afterRequestId : mtpRequestId) :
    (∀ (x : Externals W Q S D F) (w : W),
      Instance.send x request callbacks shiftedDcId msCanWait afterRequestId w
        = ((x.GetNextRequestId w).1,
            Instance.sendSerialized x (x.GetNextRequestId w).1 (x.Serialize request)
              callbacks shiftedDcId msCanWait afterRequestId (x.GetNextRequestId w).2)
      ∧ Instance.sendSerialized x (x.GetNextRequestId w).1 (x.Serialize request)
            callbacks shiftedDcId msCanWait afterRequestId (x.GetNextRequestId w).2
        = x.sendRequest (x.GetNextRequestId w).1 (x.Serialize request) callbacks
            shiftedDcId msCanWait true afterRequestId (x.GetNextRequestId w).2)
    ∧ (∀ (next : G → mtpRequestId × G) (serialize : Q → S) (w : Recorded G S D F),
      Instance.send (recording next serialize) request callbacks shiftedDcId msCanWait
          afterRequestId w
        = ((next w.generator).1,
            ⟨(next w.generator).2,
              w.calls ++ [Call.getNextRequestId (next w.generator).1,
                Call.sendRequest (next w.generator).1 (serialize request) callbacks
                  shiftedDcId msCanWait true afterRequestId]⟩)) := by
  refine ⟨fun x w => ⟨rfl, rfl⟩, fun next serialize w => ?_⟩
  simp [Instance.send, Instance.sendSerialized, recording]

/-- C3: the `sendRequest` call made by `Instance::send` carries the caller's
callbacks, shiftedDcId, msCanWait and afterRequestId unchanged and the payload
`SecureRequest::Serialize(request)`; when the optional arguments are left out
it carries empty callbacks, shiftedDcId 0, msCanWait 0 and afterRequestId 0. -/
theorem send_passes_its_arguments_through (next : G → mtpRequestId × G)
    (serialize : Q → S) (request : Q) (w : Recorded G S D F) :
    (∀ (callbacks : RPCResponseHandler D F) (shiftedDcId : ShiftedDcId)
        (msCanWait : Time) (afterRequestId : mtpRequestId),
      (Instance.send (recording next serialize) request callbacks shiftedDcId msCanWait
          afterRequestId w).2.calls.getLast?
        = some (Call.sendRequest (next w.generator).1 (serialize request) callbacks
            shiftedDcId msCanWait true afterRequestId))
    ∧ ((Instance.send (recording next serialize) request) w).2.calls.getLast?
        = some (Call.sendRequest (next w.generator).1 (serialize request) ⟨none, none⟩
            0 0 true 0)
    ∧ (∀ (callbacks : RPCResponseHandler D F),
      ((Instance.send (recording next serialize) request callbacks) w).2.calls.getLast?
        = some (Call.sendRequest (next w.generator).1 (serialize request) callbacks
            0 0 true 0))
    ∧ (∀ (callbacks : RPCResponseHandler D F) (shiftedDcId : ShiftedDcId),
      ((Instance.send (recording next serialize) request callbacks shiftedDcId)
          w).2.calls.getLast?
        = some (Call.sendRequest (next w.generator).1 (serialize request) callbacks
            shiftedDcId 0 true 0))
    ∧ (∀ (callbacks : RPCResponseHandler D F) (shiftedDcId : ShiftedDcId)
        (msCanWait : Time),
      ((Instance.send (recording next serialize) request callbacks shiftedDcId
          msCanWait) w).2.calls.getLast?
        = some (Call.sendRequest (next w.generator).1 (serialize request) callbacks
            shiftedDcId msCanWait true 0)) := by
  refine ⟨?_, ?_, ?_, ?_, ?_⟩ <;> intros <;>
    simp [Instance.send, Instance.sendSerialized, recording, List.getLast?_append]

/-- C8: the caller cannot choose the layer flag.  `Instance::send` and
`Instance::sendSerialized` call `sendRequest` with `needsLayer = true`;
`Instance::sendProtocolMessage` calls it with `needsLayer = false`, empty
callbacks, msCanWait 0 and afterRequestId 0, and returns the id it has just
taken from the generator and passed on. -/
theorem layer_flag_is_fixed_by_the_entry_point (x : Externals W Q S D F)
    (next : G → mtpRequestId × G) (serialize : Q → S) (request : Q) (payload : S)
    (requestId : mtpRequestId) (callbacks : RPCResponseHandler D F)
    (shiftedDcId : ShiftedDcId) (msCanWait : Time) (afterRequestId : mtpRequestId)
    (w : W) (v : Recorded G S D F) :
    Instance.send x request callbacks shiftedDcId msCanWait afterRequestId w
        = ((x.GetNextRequestId w).1,
            x.sendRequest (x.GetNextRequestId w).1 (x.Serialize request) callbacks
              shiftedDcId msCanWait true afterRequestId (x.GetNextRequestId w).2)
    ∧ Instance.sendSerialized x requestId payload callbacks shiftedDcId msCanWait
          afterRequestId w
        = x.sendRequest requestId payload callbacks shiftedDcId msCanWait true
            afterRequestId w
    ∧ Instance.sendProtocolMessage x shiftedDcId request w
        = ((x.GetNextRequestId w).1,
            x.sendRequest (x.GetNextRequestId w).1 (x.Serialize request) ⟨none, none⟩
              shiftedDcId 0 false 0 (x.GetNextRequestId w).2)
    ∧ Instance.sendProtocolMessage (recording next serialize) shiftedDcId request v
        = ((next v.generator).1,
            ⟨(next v.generator).2,
              v.calls ++ [Call.getNextRequestId (next v.generator).1,
                Call.sendRequest (next v.generator).1 (serialize request) ⟨none, none⟩
                  shiftedDcId 0 false 0]⟩) := by
  refine ⟨rfl, rfl, rfl, ?_⟩
  simp [Instance.sendProtocolMessage, recording]

/-- C9: the `onDone`/`onFail` overload of `Instance::send` is the
`RPCResponseHandler` overload at `RPCResponseHandler(onDone, onFail)`: same
returned id and same world, hence the same `sendRequest` call; the logged run
allocates one id; with `onFail` (and the later arguments) left out the handler
pair passed has a null fail handler. -/
theorem send_overloads_agree (next : G → mtpRequestId × G) (serialize : Q → S)
    (request : Q) (onDone : Option D) (onFail : Option F)
    (shiftedDcId : ShiftedDcId) (msCanWait : Time) (afterRequestId : mtpRequestId)
    (v : Recorded G S D F) :
    (∀ (x : Externals W Q S D F) (w : W),
      Instance.sendHandlers x request onDone onFail shiftedDcId msCanWait
          afterRequestId w
        = Instance.send x request (RPCResponseHandler.mk onDone onFail) shiftedDcId
            msCanWait afterRequestId w)
    ∧ Instance.sendHandlers (recording next serialize) request onDone onFail
          shiftedDcId msCanWait afterRequestId v
        = ((next v.generator).1,
            ⟨(next v.generator).2,
              v.calls ++ [Call.getNextRequestId (next v.generator).1,
                Call.sendRequest (next v.generator).1 (serialize request)
                  ⟨onDone, onFail⟩ shiftedDcId msCanWait true afterRequestId]⟩)
    ∧ (Instance.sendHandlers (recording next serialize) request onDone) v
        = ((next v.generator).1,
            ⟨(next v.generator).2,
              v.calls ++ [Call.getNextRequestId (next v.generator).1,
                Call.sendRequest (next v.generator).1 (serialize request)
                  ⟨onDone, none⟩ 0 0 true 0]⟩) := by
  refine ⟨fun x w => rfl, ?_, ?_⟩ <;>
    simp [Instance.sendHandlers, Instance.send, Instance.sendSerialized, recording]

/-- C10: the public `Instance::sendSerialized` takes no id from the generator.
Its result does not depend on the generator at all, the logged run leaves the
generator state as it was and adds one `sendRequest` call with the caller's
requestId, request, callbacks, shiftedDcId, msCanWait and afterRequestId; two
calls with the same requestId hand that id to `sendRequest` twice. -/
theorem sendSerialized_allocates_no_id (next : G → mtpRequestId × G)
    (serialize : Q → S) (requestId : mtpRequestId) (payload payload2 : S)
    (callbacks callbacks2 : RPCResponseHandler D F) (shiftedDcId : ShiftedDcId)
    (msCanWait : Time) (afterRequestId : mtpRequestId) (v : Recorded G S D F) :
    (∀ (x : Externals W Q S D F) (generator : W → mtpRequestId × W) (w : W),
      Instance.sendSerialized ⟨generator, x.Serialize, x.sendRequest⟩ requestId payload
          callbacks shiftedDcId msCanWait afterRequestId w
        = Instance.sendSerialized x requestId payload callbacks shiftedDcId msCanWait
            afterRequestId w)
    ∧ Instance.sendSerialized (recording next serialize) requestId payload callbacks
          shiftedDcId msCanWait afterRequestId v
        = ⟨v.generator,
            v.calls ++ [Call.sendRequest requestId payload callbacks shiftedDcId
              msCanWait true afterRequestId]⟩
    ∧ Instance.sendSerialized (recording next serialize) requestId payload2 callbacks2
          shiftedDcId msCanWait afterRequestId
          (Instance.sendSerialized (recording next serialize) requestId payload
            callbacks shiftedDcId msCanWait afterRequestId v)
        = ⟨v.generator,
            v.calls ++ [Call.sendRequest requestId payload callbacks shiftedDcId
                msCanWait true afterRequestId,
              Call.sendRequest requestId payload2 callbacks2 shiftedDcId msCanWait
                true afterRequestId]⟩ := by
  refine ⟨fun x generator w => rfl, rfl, ?_⟩
  simp [Instance.sendSerialized, recording]

end EntryPointTheorems

/-! ## The ids in the table -/

section OneEntry

variable {Q S D F E : Type}

/-- Marking entries as handed over keeps their ids. -/
theorem ids_map_handOver (b : mtpRequestId) (l : List (Entry S D F)) :
    (l.map (fun e => if e.waitsFor b then (⟨e.request, true⟩ : Entry S D F) else e)).map
        (fun e => e.request.requestId)
      = l.map (fun e => e.request.requestId) := by
  rw [List.map_map]
  apply List.map_congr_left
  intro e _
  by_cases hw : e.waitsFor b = true <;> simp [hw]

/-- The step `finish` keeps the ids of the table. -/
theorem finish_ids (a : mtpRequestId) (r : Registry S D F E) :
    (Registry.finish a r).ids = r.ids :=
  ids_map_handOver a r.pending

/-- Delivering a failure keeps the ids of the table. -/
theorem deliverFailure_ids (a : mtpRequestId) (onFail : Option F) (error : E)
    (r : Registry S D F E) : (Registry.deliverFailure a onFail error r).ids = r.ids := by
  cases onFail <;> rfl

end OneEntry

/-! ## Request ids -/

section RequestIds

variable {V Q S D F E : Type}

/-- Below `intMax` the 32-bit increment is the increment. -/
theorem wrapInt_succ (n : Int) (hlow : intMin ≤ n) (hhigh : n < intMax) :
    wrapInt (n + 1) = n + 1 := by
  simp only [intMin, intMax] at hlow hhigh
  simp only [wrapInt]
  omega

/-- A 32-bit value is between `intMin` and `intMax`. -/
theorem wrapInt_range (v : Int) : intMin ≤ wrapInt v ∧ wrapInt v ≤ intMax := by
  simp only [intMin, intMax, wrapInt]
  omega

/-- With the counter, `Instance::send` returns the id the generator gives for
the last id, and leaves it as the last id. -/
theorem send_withCounter_fst (serialize : Q → S)
    (sr : mtpRequestId → S → RPCResponseHandler D F → ShiftedDcId → Time → Bool →
      mtpRequestId → V → V)
    (request : Q) (callbacks : RPCResponseHandler D F) (shiftedDcId : ShiftedDcId)
    (msCanWait : Time) (afterRequestId : mtpRequestId) (w : Int × V) :
    (Instance.send (withCounter serialize sr) request callbacks shiftedDcId msCanWait
        afterRequestId w).1 = wrapInt (w.1 + 1)
    ∧ (Instance.send (withCounter serialize sr) request callbacks shiftedDcId msCanWait
        afterRequestId w).2.1 = wrapInt (w.1 + 1) :=
  ⟨rfl, rfl⟩

/-- With the counter, `Instance::sendProtocolMessage` returns the id the
generator gives for the last id, and leaves it as the last id. -/
theorem sendProtocolMessage_withCounter_fst (serialize : Q → S)
    (sr : mtpRequestId → S → RPCResponseHandler D F → ShiftedDcId → Time → Bool →
      mtpRequestId → V → V)
    (shiftedDcId : ShiftedDcId) (request : Q) (w : Int × V) :
    (Instance.sendProtocolMessage (withCounter serialize sr) shiftedDcId request w).1
        = wrapInt (w.1 + 1)
    ∧ (Instance.sendProtocolMessage (withCounter serialize sr) shiftedDcId request w).2.1
        = wrapInt (w.1 + 1) :=
  ⟨rfl, rfl⟩

/-- As long as the counter stays within `int`, every id returned by a run is
above the last id before the run and at most the number of id calls above it,
and the ids come out strictly increasing. -/
theorem idsReturned_increasing (serialize : Q → S)
    (sr : mtpRequestId → S → RPCResponseHandler D F → ShiftedDcId → Time → Bool →
      mtpRequestId → V → V) (calls : List (IdCall V Q D F)) :
    ∀ w : Int × V, intMin ≤ w.1 → w.1 + idCallCount calls ≤ intMax →
      (∀ i : Int, i ∈ (idsReturned (withCounter serialize sr) calls w).1 →
        w.1 < i ∧ i ≤ w.1 + idCallCount calls)
      ∧ List.Pairwise (fun a b : Int => a < b)
          (idsReturned (withCounter serialize sr) calls w).1 := by
  induction calls with
  | nil => intro w _ _; simp [idsReturned]
  | cons call rest ih =>
    intro w hlow hhigh
    have hnat : (0 : Int) ≤ (idCallCount rest : Int) := Int.ofNat_nonneg _
    cases call with
    | send request callbacks shiftedDcId msCanWait afterRequestId =>
      have hlen : ((idCallCount (IdCall.send request callbacks shiftedDcId msCanWait
          afterRequestId :: rest) : Nat) : Int) = (idCallCount rest : Int) + 1 := by
        simp [idCallCount]
      rw [hlen] at hhigh
      obtain ⟨h1, h2⟩ := send_withCounter_fst serialize sr request callbacks shiftedDcId
        msCanWait afterRequestId w
      have hsucc : wrapInt (w.1 + 1) = w.1 + 1 :=
        wrapInt_succ w.1 hlow (by simp only [intMax] at hhigh ⊢; omega)
      rw [hsucc] at h1 h2
      obtain ⟨ihgt, ihpw⟩ := ih (Instance.send (withCounter serialize sr) request callbacks
        shiftedDcId msCanWait afterRequestId w).2
        (by rw [h2]; simp only [intMin] at hlow ⊢; omega) (by rw [h2]; omega)
      rw [h2] at ihgt
      simp only [idsReturned, List.mem_cons, List.pairwise_cons, h1]
      refine ⟨fun i hi => ?_, fun i hi => ?_, ihpw⟩
      · rcases hi with hi | hi
        · rw [hi, hlen]; omega
        · have := ihgt i hi; rw [hlen]; omega
      · have := ihgt i hi; omega
    | sendProtocolMessage shiftedDcId request =>
      have hlen : ((idCallCount (IdCall.sendProtocolMessage shiftedDcId request :: rest
          : List (IdCall V Q D F)) : Nat) : Int) = (idCallCount rest : Int) + 1 := by
        simp [idCallCount]
      rw [hlen] at hhigh
      obtain ⟨h1, h2⟩ := sendProtocolMessage_withCounter_fst serialize sr shiftedDcId
        request w
      have hsucc : wrapInt (w.1 + 1) = w.1 + 1 :=
        wrapInt_succ w.1 hlow (by simp only [intMax] at hhigh ⊢; omega)
      rw [hsucc] at h1 h2
      obtain ⟨ihgt, ihpw⟩ := ih (Instance.sendProtocolMessage (withCounter serialize sr)
        shiftedDcId request w).2
        (by rw [h2]; simp only [intMin] at hlow ⊢; omega) (by rw [h2]; omega)
      rw [h2] at ihgt
      simp only [idsReturned, List.mem_cons, List.pairwise_cons, h1]
      refine ⟨fun i hi => ?_, fun i hi => ?_, ihpw⟩
      · rcases hi with hi | hi
        · rw [hi, hlen]; omega
        · have := ihgt i hi; rw [hlen]; omega
      · have := ihgt i hi; omega
    | other change =>
      have hlen : idCallCount (IdCall.other change :: rest : List (IdCall V Q D F))
          = idCallCount rest := by
        simp [idCallCount]
      rw [hlen] at hhigh ⊢
      obtain ⟨ihgt, ihpw⟩ := ih (w.1, change w.2) hlow hhigh
      simp only [idsReturned]
      exact ⟨ihgt, ihpw⟩

/-- An id in the table after removing entries was in the table before. -/
theorem mem_ids_filter (keep : Entry S D F → Bool) (l : List (Entry S D F)) (i : Int)
    (h : i ∈ (l.filter keep).map (fun e => e.request.requestId)) :
    i ∈ l.map (fun e => e.request.requestId) := by
  obtain ⟨e, he, hid⟩ := List.mem_map.mp h
  exact List.mem_map.mpr ⟨e, (List.mem_filter.mp he).1, hid⟩

/-- An id in the table after `submit` was there before or is the submitted id. -/
theorem submit_ids_mem (c : Collaborators E) (requestId : mtpRequestId) (request : S)
    (callbacks : RPCResponseHandler D F) (shiftedDcId : ShiftedDcId) (msCanWait : Time)
    (needsLayer : Bool) (afterRequestId : mtpRequestId) (r : Registry S D F E) (i : Int)
    (h : i ∈ (Registry.submit c requestId request callbacks shiftedDcId msCanWait
      needsLayer afterRequestId r).ids) :
    i ∈ r.ids ∨ i = requestId := by
  unfold Registry.submit at h
  by_cases hreach : c.reachable shiftedDcId = true
  · simp only [hreach, if_true] at h
    by_cases hheld : (afterRequestId != 0 && !r.reachedTerminal afterRequestId) = true
    · simp only [hheld, if_true, Registry.ids, List.map_append, List.map_cons,
        List.map_nil, List.mem_append, List.mem_singleton] at h
      rcases h with h | h
      · exact Or.inl (mem_ids_filter _ _ _ h)
      · exact Or.inr h
    · simp only [hheld, Bool.false_eq_true, if_false, Registry.ids, List.map_append,
        List.map_cons, List.map_nil, List.mem_append, List.mem_singleton] at h
      rcases h with h | h
      · exact Or.inl (mem_ids_filter _ _ _ h)
      · exact Or.inr h
  · have hreach2 : c.reachable shiftedDcId = false := by simpa using hreach
    simp only [hreach2, Bool.false_eq_true, if_false] at h
    rw [finish_ids, deliverFailure_ids] at h
    exact Or.inl h

/-- An id in the table after a response was there before. -/
theorem execCallback_ids_mem (requestId : mtpRequestId) (response : List Int)
    (r : Registry S D F E) (i : Int)
    (h : i ∈ (Instance.execCallback requestId response r).ids) : i ∈ r.ids := by
  unfold Instance.execCallback at h
  cases hfind : r.pending.find? (fun e => e.request.requestId == requestId) with
  | none => simpa [hfind] using h
  | some e =>
    simp only [hfind] at h
    rw [finish_ids] at h
    exact mem_ids_filter _ _ _ h

/-- An id in the table after an error was there before. -/
theorem rpcErrorOccured_ids_mem (c : Collaborators E) (requestId : mtpRequestId)
    (onFail : Option F) (error : E) (r : Registry S D F E) (i : Int)
    (h : i ∈ (Instance.rpcErrorOccured c requestId onFail error r).2.ids) : i ∈ r.ids := by
  unfold Instance.rpcErrorOccured at h
  by_cases hrec : c.recoveredLocally error = true
  · simpa [hrec] using h
  · by_cases hp : Instance.hasCallbacks requestId r = true
    · simp only [hrec, Bool.false_eq_true, if_false, hp, if_true] at h
      rw [finish_ids, deliverFailure_ids] at h
      exact mem_ids_filter _ _ _ h
    · simpa [hrec, hp] using h

/-- An id above all ids of the table is not pending. -/
theorem not_pending_of_above (r : Registry S D F E) (n a : Int)
    (hall : ∀ i : Int, i ∈ r.ids → i ≤ n) (ha : n < a) :
    Instance.hasCallbacks a r = false := by
  simp only [Instance.hasCallbacks, List.any_eq_false, beq_iff_eq]
  intro e he heq
  have hmem : e.request.requestId ∈ r.ids := List.mem_map.mpr ⟨e, he, rfl⟩
  have := hall _ hmem
  rw [heq] at this
  omega

/-- An action that does not choose its id keeps the ids of the table at or
below the last id handed out, which goes up by one when the action takes an
id. -/
theorem perform_ids_bound (c : Collaborators E) (serialize : Q → S)
    (act : Action Q S D F E) (w : Int × Registry S D F E)
    (hact : act.choosesId = false) (hlow : intMin ≤ w.1)
    (hhigh : w.1 + idsTaken [act] ≤ intMax)
    (hall : ∀ i : Int, i ∈ w.2.ids → i ≤ w.1) :
    (∀ i : Int, i ∈ (perform c serialize act w).2.ids → i ≤ (perform c serialize act w).1)
    ∧ (perform c serialize act w).1 = w.1 + idsTaken [act] := by
  cases act with
  | send request callbacks shiftedDcId msCanWait afterRequestId =>
    have hone : ((idsTaken ([Action.send request callbacks shiftedDcId msCanWait
        afterRequestId] : List (Action Q S D F E)) : Nat) : Int) = 1 := by
      simp [idsTaken]
    rw [hone] at hhigh ⊢
    have hsucc : wrapInt (w.1 + 1) = w.1 + 1 :=
      wrapInt_succ w.1 hlow (by simp only [intMax] at hhigh ⊢; omega)
    have hp : perform c serialize
        (Action.send request callbacks shiftedDcId msCanWait afterRequestId) w
          = (wrapInt (w.1 + 1), Registry.submit c (wrapInt (w.1 + 1)) (serialize request)
              callbacks shiftedDcId msCanWait true afterRequestId w.2) := rfl
    rw [hp, hsucc]
    refine ⟨fun i hi => ?_, rfl⟩
    rcases submit_ids_mem c _ _ _ _ _ _ _ _ i hi with h | h
    · have := hall i h; simp only []; omega
    · simp only []; omega
  | sendProtocolMessage shiftedDcId request =>
    have hone : ((idsTaken ([Action.sendProtocolMessage shiftedDcId request] :
        List (Action Q S D F E)) : Nat) : Int) = 1 := by
      simp [idsTaken]
    rw [hone] at hhigh ⊢
    have hsucc : wrapInt (w.1 + 1) = w.1 + 1 :=
      wrapInt_succ w.1 hlow (by simp only [intMax] at hhigh ⊢; omega)
    have hp : perform c serialize (Action.sendProtocolMessage shiftedDcId request) w
          = (wrapInt (w.1 + 1), Registry.submit c (wrapInt (w.1 + 1)) (serialize request)
              (⟨none, none⟩ : RPCResponseHandler D F) shiftedDcId 0 false 0 w.2) := rfl
    rw [hp, hsucc]
    refine ⟨fun i hi => ?_, rfl⟩
    rcases submit_ids_mem c _ _ _ _ _ _ _ _ i hi with h | h
    · have := hall i h; simp only []; omega
    · simp only []; omega
  | sendSerialized requestId request callbacks shiftedDcId msCanWait afterRequestId =>
    simp [Action.choosesId] at hact
  | cancel requestId =>
    refine ⟨fun i hi => ?_, by simp [perform, idsTaken]⟩
    exact hall i (mem_ids_filter _ _ _ hi)
  | execCallback requestId response =>
    refine ⟨fun i hi => ?_, by simp [perform, idsTaken]⟩
    exact hall i (execCallback_ids_mem _ _ _ i hi)
  | rpcErrorOccured requestId onFail error =>
    refine ⟨fun i hi => ?_, by simp [perform, idsTaken]⟩
    exact hall i (rpcErrorOccured_ids_mem c _ _ _ _ i hi)

/-- The ids taken by a run are those of its first action and of the rest. -/
theorem idsTaken_cons (act : Action Q S D F E) (rest : List (Action Q S D F E)) :
    idsTaken (act :: rest) = idsTaken [act] + idsTaken rest := by
  cases act <;> simp [idsTaken, Nat.add_comm]

/-- A run of actions that do not choose their ids, within `int`, keeps the ids
of the table at or below the last id handed out, which goes up by the number
of ids taken. -/
theorem performAll_ids_bound (c : Collaborators E) (serialize : Q → S)
    (actions : List (Action Q S D F E)) :
    ∀ w : Int × Registry S D F E, (∀ act ∈ actions, act.choosesId = false) →
      intMin ≤ w.1 → w.1 + idsTaken actions ≤ intMax →
      (∀ i : Int, i ∈ w.2.ids → i ≤ w.1) →
      (∀ i : Int, i ∈ (performAll c serialize actions w).2.ids →
        i ≤ (performAll c serialize actions w).1)
      ∧ (performAll c serialize actions w).1 = w.1 + idsTaken actions := by
  induction actions with
  | nil =>
    intro w _ _ _ hall
    exact ⟨hall, by simp [performAll, idsTaken]⟩
  | cons act rest ih =>
    intro w hact hlow hhigh hall
    have hlen : ((idsTaken (act :: rest) : Nat) : Int)
        = (idsTaken [act] : Int) + (idsTaken rest : Int) := by
      rw [idsTaken_cons]; push_cast; rfl
    rw [hlen] at hhigh
    have hnat1 : (0 : Int) ≤ (idsTaken [act] : Int) := Int.ofNat_nonneg _
    have hnat2 : (0 : Int) ≤ (idsTaken rest : Int) := Int.ofNat_nonneg _
    obtain ⟨p1, p2⟩ := perform_ids_bound c serialize act w
      (hact act (List.mem_cons_self act rest)) hlow (by omega) hall
    obtain ⟨q1, q2⟩ := ih (perform c serialize act w)
      (fun b hb => hact b (List.mem_cons_of_mem act hb))
      (by rw [p2]; simp only [intMin] at hlow ⊢; omega) (by rw [p2]; omega) p1
    refine ⟨q1, ?_⟩
    show (performAll c serialize rest (perform c serialize act w)).1 = _
    rw [q2, p2, hlen]; omega

/-- C2 (as amended): request ids increase and are not reused as long as the
counter stays within the C++ `int`.  With the id generator the spec describes,
for every sequence of calls of `Instance::send` and
`Instance::sendProtocolMessage` that starts at an `int` and makes no more such
calls than there are `int`s up to `intMax`, whatever `sendRequest` does and
whatever else happens to the instance in between, the ids returned are
strictly increasing in call order, above the last id used before, within
`int` and pairwise distinct.  In such a run of a fresh instance with the
registry the spec describes, made of calls of `send` and
`sendProtocolMessage`, cancels, responses and errors, with one more id left,
the id that the next call hands out is above every pending id and is not
pending: a request never gets an id that a pending request has. -/
theorem request_ids_increase_within_int (serialize : Q → S)
    (sr : mtpRequestId → S → RPCResponseHandler D F → ShiftedDcId → Time → Bool →
      mtpRequestId → V → V) (calls : List (IdCall V Q D F)) (w : Int × V)
    (c : Collaborators E) (actions : List (Action Q S D F E)) (lastRequestId : Int)
    (hw : intMin ≤ w.1) (hcalls : w.1 + idCallCount calls ≤ intMax)
    (hlast : intMin ≤ lastRequestId) (hactions : lastRequestId + idsTaken actions < intMax)
    (hsend : ∀ act ∈ actions, act.choosesId = false) :
    List.Pairwise (fun a b : Int => a < b) (idsReturned (withCounter serialize sr) calls w).1
    ∧ (∀ i : Int, i ∈ (idsReturned (withCounter serialize sr) calls w).1 →
        w.1 < i ∧ i ≤ intMax)
    ∧ (idsReturned (withCounter serialize sr) calls w).1.Nodup
    ∧ (∀ i : Int,
        i ∈ (performAll c serialize actions (lastRequestId, Registry.empty)).2.ids →
        i < (internal.GetNextRequestId
          (performAll c serialize actions (lastRequestId, Registry.empty)).1).1)
    ∧ Instance.hasCallbacks
        (internal.GetNextRequestId
          (performAll c serialize actions (lastRequestId, Registry.empty)).1).1
        (performAll c serialize actions (lastRequestId, Registry.empty)).2 = false := by
  obtain ⟨hgt, hpw⟩ := idsReturned_increasing serialize sr calls w hw hcalls
  obtain ⟨b1, b2⟩ := performAll_ids_bound c serialize actions
    (lastRequestId, Registry.empty)
    hsend hlast (le_of_lt hactions) (by intro i hi; simp [Registry.ids, Registry.empty] at hi)
  have hnat : (0 : Int) ≤ (idsTaken actions : Int) := Int.ofNat_nonneg _
  have hlow : intMin ≤ (performAll c serialize actions (lastRequestId, Registry.empty)).1 := by
    rw [b2]; simp only [intMin] at hlast ⊢; omega
  have hhigh : (performAll c serialize actions (lastRequestId, Registry.empty)).1 < intMax := by
    rw [b2]; exact hactions
  have hnext : (internal.GetNextRequestId
      (performAll c serialize actions (lastRequestId, Registry.empty)).1).1
        = (performAll c serialize actions (lastRequestId, Registry.empty)).1 + 1 :=
    wrapInt_succ _ hlow hhigh
  refine ⟨hpw, fun i hi => ?_, hpw.imp (fun h => ne_of_lt h), fun i hi => ?_, ?_⟩
  · have := hgt i hi
    exact ⟨this.1, le_trans this.2 hcalls⟩
  · rw [hnext]
    exact lt_of_le_of_lt (b1 i hi) (lt_add_one _)
  · rw [hnext]
    exact not_pending_of_above _ _ _ b1 (lt_add_one _)

end RequestIds

/-! ## Cancelling -/

section Cancel

variable {S D F E : Type}

/-- Filtering out the entries of `a` a second time changes nothing. -/
theorem filter_isNot_idem (a : mtpRequestId) (l : List (Entry S D F)) :
    (l.filter (Entry.isNot a)).filter (Entry.isNot a) = l.filter (Entry.isNot a) := by
  simp [List.filter_filter]

/-- Without an entry of `a`, filtering out the entries of `a` changes nothing. -/
theorem filter_isNot_of_not_pending (a : mtpRequestId) (l : List (Entry S D F))
    (h : l.any (fun e => e.request.requestId == a) = false) :
    l.filter (Entry.isNot a) = l := by
  rw [List.filter_eq_self]
  intro e he
  have := (List.any_eq_false.mp h) e he
  simpa [Entry.isNot] using this

/-- Marking entries as handed over commutes with filtering by request id. -/
theorem filter_isNot_map_handOver (a b : mtpRequestId) (l : List (Entry S D F)) :
    (l.map (fun e => if e.waitsFor b then (⟨e.request, true⟩ : Entry S D F) else e)).filter
        (Entry.isNot a)
      = (l.filter (Entry.isNot a)).map
          (fun e => if e.waitsFor b then (⟨e.request, true⟩ : Entry S D F) else e) := by
  induction l with
  | nil => rfl
  | cons e rest ih =>
    by_cases hw : e.waitsFor b = true <;> by_cases hn : Entry.isNot a e = true <;>
      simp_all [List.filter_cons, Entry.isNot]

/-- C5: `Instance::cancel` is idempotent.  In the registry the spec describes,
for every state and every request id, cancelling twice leaves the state that
cancelling once leaves; cancelling an id that is not pending leaves the state
as it is; and so does cancelling an id that has just been completed by a
response or by a surfaced error. -/
theorem cancel_is_idempotent (c : Collaborators E) (requestId : mtpRequestId)
    (r : Registry S D F E) :
    Instance.cancel requestId (Instance.cancel requestId r) = Instance.cancel requestId r
    ∧ (Instance.hasCallbacks requestId r = false → Instance.cancel requestId r = r)
    ∧ (∀ response : List Int,
        Instance.cancel requestId (Instance.execCallback requestId response r)
          = Instance.execCallback requestId response r)
    ∧ (∀ (onFail : Option F) (error : E), c.recoveredLocally error = false →
        Instance.cancel requestId (Instance.rpcErrorOccured c requestId onFail error r).2
          = (Instance.rpcErrorOccured c requestId onFail error r).2) := by
  refine ⟨?_, ?_, ?_, ?_⟩
  · simp [Instance.cancel, filter_isNot_idem]
  · intro h
    cases r with
    | mk pending trace =>
      simp only [Instance.hasCallbacks] at h
      simp [Instance.cancel, filter_isNot_of_not_pending requestId pending h]
  · intro response
    unfold Instance.execCallback
    cases hfind : r.pending.find? (fun e => e.request.requestId == requestId) with
    | none =>
      cases r with
      | mk pending trace =>
        have h : pending.any (fun e => e.request.requestId == requestId) = false := by
          rw [List.any_eq_false]
          intro e he
          have := List.find?_eq_none.mp hfind e he
          simpa using this
        simp [Instance.cancel, filter_isNot_of_not_pending requestId pending h]
    | some e =>
      simp only [Instance.cancel, Registry.finish, filter_isNot_map_handOver,
        filter_isNot_idem]
  · intro onFail error herr
    unfold Instance.rpcErrorOccured
    simp only [herr, Bool.false_eq_true, if_false]
    by_cases hp : Instance.hasCallbacks requestId r = true
    · simp only [hp, if_true]
      cases onFail <;>
        simp only [Instance.cancel, Registry.finish, Registry.deliverFailure,
          filter_isNot_map_handOver, filter_isNot_idem]
    · have hp2 : Instance.hasCallbacks requestId r = false := by simpa using hp
      simp only [hp2, Bool.false_eq_true, if_false]
      cases r with
      | mk pending trace =>
        simp only [Instance.hasCallbacks] at hp2
        simp [Instance.cancel, filter_isNot_of_not_pending requestId pending hp2]

end Cancel

/-! ## Failure at submission -/

section Unreachable

variable {W Q S D F E X : Type}

end Unreachable

/-! ## Ordering after another request -/

section Ordering

variable {G Q S D F E : Type}

/-- A trace checks out in two parts. -/
theorem orderedFrom_append (xs ys : List (Event S D F E)) :
    ∀ seen : List (Event S D F E),
      orderedFrom seen (xs ++ ys) = (orderedFrom seen xs && orderedFrom (seen ++ xs) ys) := by
  induction xs with
  | nil => intro seen; simp [orderedFrom]
  | cons x rest ih =>
    intro seen
    simp [orderedFrom, ih, Bool.and_assoc]

/-- What the check says about each hand-over in the trace. -/
theorem orderedFrom_sound (trace : List (Event S D F E)) :
    ∀ seen : List (Event S D F E), orderedFrom seen trace = true →
      ∀ (before after : List (Event S D F E)) (p : PendingRequest S D F),
        trace = before ++ Event.handedToSession p :: after →
        p.afterRequestId ≠ 0 →
        (seen ++ before).any (Event.isTerminalOf p.afterRequestId) = true := by
  induction trace with
  | nil =>
    intro seen _ before after p h
    simp at h
  | cons e rest ih =>
    intro seen hc before after p h hne
    simp only [orderedFrom, Bool.and_eq_true] at hc
    cases before with
    | nil =>
      simp only [List.nil_append, List.cons.injEq] at h
      obtain ⟨he, -⟩ := h
      subst he
      have h1 := hc.1
      simp only [Event.allowedAfter, Bool.or_eq_true, beq_iff_eq] at h1
      rcases h1 with h1 | h1
      · exact absurd h1 hne
      · simpa using h1
    | cons b before2 =>
      simp only [List.cons_append, List.cons.injEq] at h
      obtain ⟨he, hrest⟩ := h
      subst he
      have := ih (seen ++ [e]) hc.2 before2 after p hrest hne
      simpa [List.append_assoc] using this

/-- The check implies the ordering property. -/
theorem ordered_of_orderedFrom (trace : List (Event S D F E))
    (h : orderedFrom [] trace = true) : Ordered trace := by
  intro before after p hsplit hne
  simpa using orderedFrom_sound trace [] h before after p hsplit hne

/-- Hand-overs of requests that waited for `a` are in order once `a` is
terminal. -/
theorem orderedFrom_released (a : mtpRequestId) (l : List (Entry S D F)) :
    ∀ seen : List (Event S D F E), seen.any (Event.isTerminalOf a) = true →
      orderedFrom seen ((l.filter (Entry.waitsFor a)).map
        (fun e => Event.handedToSession e.request)) = true := by
  induction l with
  | nil => intro seen _; simp [orderedFrom]
  | cons e rest ih =>
    intro seen hseen
    by_cases hw : e.waitsFor a = true
    · have hafter : e.request.afterRequestId = a := by
        simp only [Entry.waitsFor, Bool.and_eq_true, beq_iff_eq] at hw
        exact hw.2
      have hnext : (seen ++ [Event.handedToSession e.request]).any (Event.isTerminalOf a)
          = true := by
        simp [List.any_append, hseen]
      simp only [List.filter_cons, hw, if_true, List.map_cons, orderedFrom,
        Event.allowedAfter, hafter, hseen, Bool.or_true, Bool.true_and]
      exact ih _ hnext
    · have hw2 : e.waitsFor a = false := by simpa using hw
      simp only [List.filter_cons, hw2, Bool.false_eq_true, if_false]
      exact ih seen hseen

/-- The step `finish` keeps the trace in order. -/
theorem finish_ordered (a : mtpRequestId) (r : Registry S D F E)
    (h : orderedFrom [] r.trace = true) : orderedFrom [] (Registry.finish a r).trace = true := by
  simp only [Registry.finish, orderedFrom_append, List.nil_append, h, Bool.true_and,
    Bool.and_eq_true]
  refine ⟨by simp [orderedFrom, Event.allowedAfter], ?_⟩
  apply orderedFrom_released
  simp [List.any_append, Event.isTerminalOf]

/-- Delivering a failure keeps the trace in order. -/
theorem deliverFailure_ordered (a : mtpRequestId) (onFail : Option F) (error : E)
    (r : Registry S D F E) (h : orderedFrom [] r.trace = true) :
    orderedFrom [] (Registry.deliverFailure a onFail error r).trace = true := by
  cases onFail <;>
    simp [Registry.deliverFailure, orderedFrom_append, h, orderedFrom, Event.allowedAfter]

/-- The step `submit` keeps the trace in order. -/
theorem submit_ordered (c : Collaborators E) (requestId : mtpRequestId) (request : S)
    (callbacks : RPCResponseHandler D F) (shiftedDcId : ShiftedDcId) (msCanWait : Time)
    (needsLayer : Bool) (afterRequestId : mtpRequestId) (r : Registry S D F E)
    (h : orderedFrom [] r.trace = true) :
    orderedFrom [] (Registry.submit c requestId request callbacks shiftedDcId msCanWait
      needsLayer afterRequestId r).trace = true := by
  unfold Registry.submit
  by_cases hreach : c.reachable shiftedDcId = true
  · simp only [hreach, if_true]
    by_cases hheld : (afterRequestId != 0 && !r.reachedTerminal afterRequestId) = true
    · simp only [hheld, if_true]
      exact h
    · simp only [hheld, Bool.false_eq_true, if_false, orderedFrom_append, List.nil_append, h,
        Bool.true_and, orderedFrom, Event.allowedAfter, Bool.and_true]
      simp only [Bool.and_eq_true, Bool.not_eq_true', bne_iff_ne, ne_eq, not_and,
        Bool.not_eq_false, Registry.reachedTerminal] at hheld
      by_cases h0 : afterRequestId = 0
      · simp [h0]
      · simp [hheld h0]
  · have hreach2 : c.reachable shiftedDcId = false := by simpa using hreach
    simp only [hreach2, Bool.false_eq_true, if_false]
    exact finish_ordered _ _ (deliverFailure_ordered _ _ _ _ h)

/-- The step `execCallback` keeps the trace in order. -/
theorem execCallback_ordered (requestId : mtpRequestId) (response : List Int)
    (r : Registry S D F E) (h : orderedFrom [] r.trace = true) :
    orderedFrom [] (Instance.execCallback requestId response r).trace = true := by
  unfold Instance.execCallback
  cases r.pending.find? (fun e => e.request.requestId == requestId) with
  | none => exact h
  | some e =>
    apply finish_ordered
    cases e.request.callbacks.onDone <;>
      simp [orderedFrom_append, h, orderedFrom, Event.allowedAfter]

/-- The step `rpcErrorOccured` keeps the trace in order. -/
theorem rpcErrorOccured_ordered (c : Collaborators E) (requestId : mtpRequestId)
    (onFail : Option F) (error : E) (r : Registry S D F E)
    (h : orderedFrom [] r.trace = true) :
    orderedFrom [] (Instance.rpcErrorOccured c requestId onFail error r).2.trace = true := by
  unfold Instance.rpcErrorOccured
  by_cases hrec : c.recoveredLocally error = true
  · simpa [hrec] using h
  · by_cases hp : Instance.hasCallbacks requestId r = true
    · simp only [hrec, Bool.false_eq_true, if_false, hp, if_true]
      exact finish_ordered _ _ (deliverFailure_ordered _ _ _ _ h)
    · simpa [hrec, hp] using h

/-- Every action keeps the trace in order. -/
theorem perform_ordered (c : Collaborators E) (serialize : Q → S)
    (a : Action Q S D F E) (w : Int × Registry S D F E)
    (h : orderedFrom [] w.2.trace = true) :
    orderedFrom [] (perform c serialize a w).2.trace = true := by
  cases a with
  | send request callbacks shiftedDcId msCanWait afterRequestId =>
    exact submit_ordered c _ _ _ _ _ _ _ _ h
  | sendProtocolMessage shiftedDcId request =>
    exact submit_ordered c _ _ _ _ _ _ _ _ h
  | sendSerialized requestId request callbacks shiftedDcId msCanWait afterRequestId =>
    exact submit_ordered c _ _ _ _ _ _ _ _ h
  | cancel requestId => exact h
  | execCallback requestId response => exact execCallback_ordered _ _ _ h
  | rpcErrorOccured requestId onFail error => exact rpcErrorOccured_ordered c _ _ _ _ h

/-- Every run from a state with an ordered trace ends with an ordered trace. -/
theorem performAll_ordered (c : Collaborators E) (serialize : Q → S)
    (actions : List (Action Q S D F E)) :
    ∀ w : Int × Registry S D F E, orderedFrom [] w.2.trace = true →
      orderedFrom [] (performAll c serialize actions w).2.trace = true := by
  induction actions with
  | nil => intro w h; exact h
  | cons a rest ih =>
    intro w h
    exact ih (perform c serialize a w) (perform_ordered c serialize a w h)

/-- C6: a request sent after another is not transmitted before that one is
terminal.  `Instance::send` passes its afterRequestId to `sendRequest` as it
is.  With the registry the spec describes, a request sent to a reachable
datacenter with a non-zero afterRequestId that is not terminal yet is stored
and not handed to a session; and in every run of an instance, every hand-over
of a request with a non-zero afterRequestId comes after the event that made
the named request terminal. -/
theorem payload_waits_for_afterRequestId (c : Collaborators E) (serialize : Q → S)
    (next : G → mtpRequestId × G) (request : Q) (callbacks : RPCResponseHandler D F)
    (shiftedDcId : ShiftedDcId) (msCanWait : Time) (afterRequestId : mtpRequestId)
    (v : Recorded G S D F) (w : Int × Registry S D F E)
    (actions : List (Action Q S D F E)) (lastRequestId : Int) :
    (Instance.send (recording next serialize) request callbacks shiftedDcId msCanWait
        afterRequestId v).2.calls.getLast?
      = some (Call.sendRequest (next v.generator).1 (serialize request) callbacks
          shiftedDcId msCanWait true afterRequestId)
    ∧ (c.reachable shiftedDcId = true → afterRequestId ≠ 0 →
        w.2.reachedTerminal afterRequestId = false →
        (Instance.send (registryExternals c serialize) request callbacks shiftedDcId
            msCanWait afterRequestId w).2.2
          = ⟨w.2.pending.filter (Entry.isNot (internal.GetNextRequestId w.1).1)
              ++ [⟨⟨(internal.GetNextRequestId w.1).1, shiftedDcId, serialize request,
                    callbacks, msCanWait, afterRequestId, true⟩, false⟩],
              w.2.trace⟩)
    ∧ Ordered (performAll c serialize actions (lastRequestId, Registry.empty)).2.trace
    ∧ orderedFrom []
        (performAll c serialize actions (lastRequestId, Registry.empty)).2.trace = true := by
  have hall : orderedFrom []
      (performAll c serialize actions (lastRequestId, Registry.empty)).2.trace = true :=
    performAll_ordered c serialize actions (lastRequestId, Registry.empty) rfl
  refine ⟨?_, ?_, ordered_of_orderedFrom _ hall, hall⟩
  · simp [Instance.send, Instance.sendSerialized, recording, List.getLast?_append]
  · intro hreach hne hterm
    have hsend : (Instance.send (registryExternals c serialize) request callbacks
        shiftedDcId msCanWait afterRequestId w).2.2
          = Registry.submit c (internal.GetNextRequestId w.1).1 (serialize request)
              callbacks shiftedDcId msCanWait true afterRequestId w.2 := rfl
    rw [hsend]
    simp [Registry.submit, hreach, hne, hterm]

end Ordering

/-! ## Callbacks of one request -/

section Callbacks

variable {Q S D F E : Type}

end Callbacks

/-! ## The small instance, evaluated -/

/-- C2, the claim as stated fails: the ids are `int`s.  When the last id handed
out is `intMax - 1`, two calls of `send` return `intMax` and then `intMin`,
which is not an increase; and whatever `int` is handed out after `intMax`, it
is not above `intMax`. -/
theorem request_ids_stop_increasing_at_intMax :
    (idsReturned exampleExternals
        [IdCall.send 10 ⟨some 1, some 2⟩ 2 0 0, IdCall.send 11 ⟨some 3, some 4⟩ 2 0 0]
        (2147483646, Registry.empty)).1 = [2147483647, -2147483648]
    ∧ ¬ List.Pairwise (fun a b : Int => a < b)
        (idsReturned exampleExternals
          [IdCall.send 10 ⟨some 1, some 2⟩ 2 0 0, IdCall.send 11 ⟨some 3, some 4⟩ 2 0 0]
          (2147483646, Registry.empty)).1
    ∧ (∀ v : Int, ¬ (intMax < wrapInt v)) :=
  ⟨by decide, by decide, fun v h => absurd (wrapInt_range v).2 (not_le.mpr h)⟩

/-- C2 at work: three ids are handed out, to `send`, `sendProtocolMessage` and
`send` again with a cancel in between: they are 1, 2, 3; and after two
requests and a response the next id, 3, is not pending. -/
theorem request_ids_increase_within_int_witness :
    intMin ≤ exampleStart.1
    ∧ exampleStart.1
        + idCallCount ([IdCall.send 10 ⟨some 1, some 2⟩ 2 0 0, IdCall.sendProtocolMessage 2 11,
            IdCall.other (Instance.cancel 1), IdCall.send 12 ⟨none, none⟩ 9 0 1] :
            List (IdCall (Registry Nat Nat Nat Nat) Nat Nat Nat)) ≤ intMax
    ∧ (0 : Int)
        + idsTaken ([Action.send 10 ⟨some 1, some 2⟩ 2 0 0, Action.send 11 ⟨some 3, none⟩ 2 0 1,
            Action.execCallback 1 [7]] : List (Action Nat Nat Nat Nat Nat)) < intMax
    ∧ (idsReturned exampleExternals
        [IdCall.send 10 ⟨some 1, some 2⟩ 2 0 0, IdCall.sendProtocolMessage 2 11,
          IdCall.other (Instance.cancel 1), IdCall.send 12 ⟨none, none⟩ 9 0 1]
        exampleStart).1 = [1, 2, 3]
    ∧ List.Pairwise (fun a b : Int => a < b)
        (idsReturned exampleExternals
          [IdCall.send 10 ⟨some 1, some 2⟩ 2 0 0, IdCall.sendProtocolMessage 2 11,
            IdCall.other (Instance.cancel 1), IdCall.send 12 ⟨none, none⟩ 9 0 1]
          exampleStart).1
    ∧ Instance.hasCallbacks 3
        (performAll exampleCollaborators id
          [Action.send 10 ⟨some 1, some 2⟩ 2 0 0, Action.send 11 ⟨some 3, none⟩ 2 0 1,
            Action.execCallback 1 [7]] (0, Registry.empty)).2 = false :=
  ⟨by decide, by decide, by decide, by decide,
    (request_ids_increase_within_int id (Registry.submit exampleCollaborators)
      [IdCall.send 10 ⟨some 1, some 2⟩ 2 0 0, IdCall.sendProtocolMessage 2 11,
        IdCall.other (Instance.cancel 1), IdCall.send 12 ⟨none, none⟩ 9 0 1]
      exampleStart exampleCollaborators
      [Action.send 10 ⟨some 1, some 2⟩ 2 0 0, Action.send 11 ⟨some 3, none⟩ 2 0 1,
        Action.execCallback 1 [7]] 0
      (by decide) (by decide) (by decide) (by decide) (by decide)).1,
    (request_ids_increase_within_int id (Registry.submit exampleCollaborators)
      [IdCall.send 10 ⟨some 1, some 2⟩ 2 0 0, IdCall.sendProtocolMessage 2 11,
        IdCall.other (Instance.cancel 1), IdCall.send 12 ⟨none, none⟩ 9 0 1]
      exampleStart exampleCollaborators
      [Action.send 10 ⟨some 1, some 2⟩ 2 0 0, Action.send 11 ⟨some 3, none⟩ 2 0 1,
        Action.execCallback 1 [7]] 0
      (by decide) (by decide) (by decide) (by decide) (by decide)).2.2.2.2⟩

/-- C5 at work: request 1 is pending; cancelling it twice is cancelling it once,
cancelling the unknown id 7 changes nothing, and neither does cancelling
request 1 after the surfaced error 500 completed it. -/
theorem cancel_is_idempotent_witness :
    Instance.cancel 1 (Instance.cancel 1 (Instance.send exampleExternals 10 ⟨some 1, some 2⟩
        2 0 0 exampleStart).2.2)
      = ⟨[], [Event.handedToSession ⟨1, 2, 10, ⟨some 1, some 2⟩, 0, 0, true⟩]⟩
    ∧ Instance.cancel 7 (Instance.send exampleExternals 10 ⟨some 1, some 2⟩ 2 0 0
        exampleStart).2.2
      = (Instance.send exampleExternals 10 ⟨some 1, some 2⟩ 2 0 0 exampleStart).2.2
    ∧ Instance.cancel 1 (Instance.rpcErrorOccured exampleCollaborators 1 (some 2) 500
        (Instance.send exampleExternals 10 ⟨some 1, some 2⟩ 2 0 0 exampleStart).2.2).2
      = ⟨[], [Event.handedToSession ⟨1, 2, 10, ⟨some 1, some 2⟩, 0, 0, true⟩,
          Event.failInvoked 1 2 500, Event.terminal 1]⟩ :=
  ⟨((cancel_is_idempotent exampleCollaborators 1
      (Instance.send exampleExternals 10 ⟨some 1, some 2⟩ 2 0 0 exampleStart).2.2).1).trans
        (by decide),
    (cancel_is_idempotent exampleCollaborators 7
      (Instance.send exampleExternals 10 ⟨some 1, some 2⟩ 2 0 0 exampleStart).2.2).2.1
        (by decide),
    ((cancel_is_idempotent exampleCollaborators 1
      (Instance.send exampleExternals 10 ⟨some 1, some 2⟩ 2 0 0 exampleStart).2.2).2.2.2
        (some 2) 500 (by decide)).trans (by decide)⟩

/-- C6 at work: request 2 is sent after request 1.  It is stored and not handed
over; when the response of request 1 has come in, request 1 is terminal and
request 2 is handed over, and the trace is in order. -/
theorem payload_waits_for_afterRequestId_witness :
    (Instance.send exampleExternals 11 ⟨some 3, some 4⟩ 2 0 1
        (Instance.send exampleExternals 10 ⟨some 1, some 2⟩ 2 0 0 exampleStart).2).2.2
      = ⟨[⟨⟨1, 2, 10, ⟨some 1, some 2⟩, 0, 0, true⟩, true⟩,
          ⟨⟨2, 2, 11, ⟨some 3, some 4⟩, 0, 1, true⟩, false⟩],
        [Event.handedToSession ⟨1, 2, 10, ⟨some 1, some 2⟩, 0, 0, true⟩]⟩
    ∧ (performAll exampleCollaborators id
        [Action.send 10 ⟨some 1, some 2⟩ 2 0 0, Action.send 11 ⟨some 3, some 4⟩ 2 0 1,
          Action.execCallback 1 [7]] exampleStart).2.trace
      = [Event.handedToSession ⟨1, 2, 10, ⟨some 1, some 2⟩, 0, 0, true⟩,
          Event.doneInvoked 1 1 [7], Event.terminal 1,
          Event.handedToSession ⟨2, 2, 11, ⟨some 3, some 4⟩, 0, 1, true⟩]
    ∧ Ordered (performAll exampleCollaborators id
        [Action.send 10 ⟨some 1, some 2⟩ 2 0 0, Action.send 11 ⟨some 3, some 4⟩ 2 0 1,
          Action.execCallback 1 [7]] exampleStart).2.trace :=
  ⟨((payload_waits_for_afterRequestId exampleCollaborators id internal.GetNextRequestId 11
      ⟨some 3, some 4⟩ 2 0 1 (⟨0, []⟩ : Recorded Int Nat Nat Nat)
      (Instance.send exampleExternals 10 ⟨some 1, some 2⟩ 2 0 0 exampleStart).2 [] 0).2.1
        (by decide) (by decide) (by decide)).trans (by decide),
    by decide,
    (payload_waits_for_afterRequestId exampleCollaborators id internal.GetNextRequestId 11
      ⟨some 3, some 4⟩ 2 0 1 (⟨0, []⟩ : Recorded Int Nat Nat Nat) exampleStart
      [Action.send 10 ⟨some 1, some 2⟩ 2 0 0, Action.send 11 ⟨some 3, some 4⟩ 2 0 1,
        Action.execCallback 1 [7]] 0).2.2.1⟩

end MTP
